import Mathlib

/-!
A formal model of the builderator continuous build orchestrator, shallowly
embedded from its Go source (the current main.go variant together with
statusbar.go). The model covers:

- the build-session lifecycle created by `build(c)` — two capacity-1
  channels, an abort-watcher goroutine and a completion-watcher goroutine
  racing through a shared `sync.Once` single-fire guard — as an explicit
  interleaving transition system `SessionStep` over `SState`;
- the spawn-failure path of `build` (the `cmd.Start()` error branch) as the
  smaller system `FailStep` over `FailState`;
- the orchestrator event loop of `App.main` (select over the change channel
  and the current build result channel, with the `once` flag and the
  status-file writes of `writeStatus`/`report`) as the executable function
  `appLoop`;
- the `watch` starter for the external fswatch process;
- the pure path helpers `Homeopathy` and `RerootPath`.

Theorems about these definitions follow the definitions.
-/

namespace Builderator

/-- BuildResult from the source: success flag plus captured output text. -/
structure BuildResult where
  Success : Bool
  Output : String
deriving DecidableEq, Repr

/-! ## Build session model

`build(c)` (after a successful `cmd.Start()`) creates
`resultCh := make(chan BuildResult, 1)` and `abortCh := make(chan struct\x7b\x7d, 1)`,
spawns the abort-watcher goroutine (receive from abortCh, getpgid and kill the
process group, then `sendResultOnce.Do(...)` which waits for the process and
sends the canceled result) and the completion-watcher goroutine
(`exit := cmd.Wait()` then `sendResultOnce.Do(...)` which sends the natural
result), and returns both channels.

The transition system below interleaves the two goroutines with an
environment that may send abort requests (channel send is enabled only when
the capacity-1 buffer has space) and with the process exit event. `sync.Once`
is modeled by an owner field: the first goroutine to reach its `Do` with the
once unclaimed claims it and runs its body; a goroutine that reaches `Do`
while the other owns it can proceed only once the body has finished
(`onceDone`), and then skips the body.
-/

/-- Final observations of one process run: what `cmd.Wait()` returns
(`none` models a nil error, i.e. exit status zero) and the final contents of
the stdout and stderr buffers. -/
structure ProcRun where
  exitErr : Option String
  stdoutS : String
  stderrS : String

/-- Rendering of a Go `error` value by the `%v` verb: nil prints as `<nil>`. -/
def errString : Option String → String
  | none => "<nil>"
  | some e => e

/-- Output text built by the completion-watcher goroutine in `build`:
`fmt.Sprintf("exit error %v stdout:'%v' stderr:'%v'", exit, stdout, stderr)`. -/
def natOutput (p : ProcRun) : String :=
  "exit error " ++ errString p.exitErr ++ " stdout:'" ++ p.stdoutS ++ "' stderr:'" ++ p.stderrS ++ "'"

/-- BuildResult sent by the completion-watcher: `Success: exit == nil`. -/
def natResult (p : ProcRun) : BuildResult :=
  { Success := p.exitErr.isNone, Output := natOutput p }

/-- BuildResult sent by the abort-watcher goroutine in `build`. -/
def canceledResult : BuildResult :=
  { Success := false, Output := "Build canceled" }

/-- BuildResult sent when `cmd.Start()` fails:
`fmt.Sprintf("Build failed to start: %v", err)`. -/
def spawnFailResult (err : String) : BuildResult :=
  { Success := false, Output := "Build failed to start: " ++ err }

/-- Capacity of `resultCh := make(chan BuildResult, 1)`. -/
def resultChCap : Nat := 1

/-- Capacity of `abortCh := make(chan struct\x7b\x7d, 1)`. -/
def abortChCap : Nat := 1

/-- Which of the two delivery paths claimed the `sendResultOnce` guard. -/
inductive Owner
  | abortPath
  | compPath
deriving DecidableEq, Repr

/-- Program counter of the abort-watcher goroutine. -/
inductive APC
  | waitAbort  -- blocked at the channel receive from abortCh
  | atOnce     -- abort received, process group signaled, at sendResultOnce.Do
  | inWait     -- inside the Do body, at cmd.Wait()
  | atSend     -- inside the Do body, at the send of the canceled result
  | done
deriving DecidableEq, Repr

/-- Program counter of the completion-watcher goroutine. -/
inductive CPC
  | inWait     -- at exit := cmd.Wait()
  | atOnce     -- process exited, at sendResultOnce.Do
  | atSend     -- inside the Do body, at the send of the natural result
  | done
deriving DecidableEq, Repr

/-- State of one build session spawned by `build` after a successful start.
`abortBuf` is the number of buffered values in abortCh, `abortSends` the
number of abort sends the environment has completed, and `resultsSent` the
list of values ever sent on resultCh (never received in this model, so it is
also the buffer contents). -/
structure SState where
  apc : APC
  cpc : CPC
  once : Option Owner
  onceDone : Bool
  procExited : Bool
  abortBuf : Nat
  abortSends : Nat
  resultsSent : List BuildResult
deriving DecidableEq, Repr

/-- Session state right after `build` returns (process started, both
goroutines spawned, both channels empty). -/
def sessionInit : SState :=
  { apc := APC.waitAbort, cpc := CPC.inWait, once := none, onceDone := false,
    procExited := false, abortBuf := 0, abortSends := 0, resultsSent := [] }

/-- One interleaving step of a live build session. The parameter `p` fixes
what the process run will have produced by the time `cmd.Wait()` returns. -/
inductive SessionStep (p : ProcRun) : SState → SState → Prop
  /-- The caller sends an abort request; a channel send is enabled only when
  the capacity-1 buffer has space. -/
  | envAbort {s : SState} :
      s.abortBuf < abortChCap →
      SessionStep p s { s with abortBuf := s.abortBuf + 1, abortSends := s.abortSends + 1 }
  /-- The build process exits. -/
  | procExit {s : SState} :
      s.procExited = false →
      SessionStep p s { s with procExited := true }
  /-- The abort-watcher receives a buffered abort request and signals the
  process group (getpgid and kill have no further effect on this state). -/
  | abortRecv {s : SState} :
      s.apc = APC.waitAbort → 0 < s.abortBuf →
      SessionStep p s { s with apc := APC.atOnce, abortBuf := s.abortBuf - 1 }
  /-- The abort-watcher reaches sendResultOnce.Do first and claims it. -/
  | abortClaim {s : SState} :
      s.apc = APC.atOnce → s.once = none →
      SessionStep p s { s with apc := APC.inWait, once := some Owner.abortPath }
  /-- The abort-watcher reaches sendResultOnce.Do after the completion path
  has already run the body; Do returns without running the body. -/
  | abortSkip {s : SState} :
      s.apc = APC.atOnce → s.once = some Owner.compPath → s.onceDone = true →
      SessionStep p s { s with apc := APC.done }
  /-- Inside the Do body, cmd.Wait() returns once the process has exited. -/
  | abortWaitExit {s : SState} :
      s.apc = APC.inWait → s.procExited = true →
      SessionStep p s { s with apc := APC.atSend }
  /-- The abort-watcher sends the canceled result on resultCh. -/
  | abortSend {s : SState} :
      s.apc = APC.atSend → s.resultsSent.length < resultChCap →
      SessionStep p s { s with apc := APC.done, onceDone := true,
                               resultsSent := s.resultsSent ++ [canceledResult] }
  /-- The completion-watcher returns from cmd.Wait() once the process exited. -/
  | compWaitExit {s : SState} :
      s.cpc = CPC.inWait → s.procExited = true →
      SessionStep p s { s with cpc := CPC.atOnce }
  /-- The completion-watcher reaches sendResultOnce.Do first and claims it. -/
  | compClaim {s : SState} :
      s.cpc = CPC.atOnce → s.once = none →
      SessionStep p s { s with cpc := CPC.atSend, once := some Owner.compPath }
  /-- The completion-watcher reaches sendResultOnce.Do after the abort path
  has already run the body; Do returns without running the body. -/
  | compSkip {s : SState} :
      s.cpc = CPC.atOnce → s.once = some Owner.abortPath → s.onceDone = true →
      SessionStep p s { s with cpc := CPC.done }
  /-- The completion-watcher sends the natural result on resultCh. -/
  | compSend {s : SState} :
      s.cpc = CPC.atSend → s.resultsSent.length < resultChCap →
      SessionStep p s { s with cpc := CPC.done, onceDone := true,
                               resultsSent := s.resultsSent ++ [natResult p] }

/-- Reachable session states. -/
def SessionReach (p : ProcRun) (s : SState) : Prop :=
  Relation.ReflTransGen (SessionStep p) sessionInit s

/-- Inductive invariant of a live build session. Components: the abortCh
buffer respects its capacity; the abort-send accounting; and, per state of
the sendResultOnce guard, which program points and which sent results are
possible. -/
def SessionInv (p : ProcRun) (s : SState) : Prop :=
  s.abortBuf ≤ abortChCap ∧
  (s.apc = APC.waitAbort → s.abortBuf = s.abortSends) ∧
  (s.apc ≠ APC.waitAbort → s.abortSends = s.abortBuf + 1) ∧
  (s.once = none →
    s.resultsSent = [] ∧ s.onceDone = false ∧
    (s.apc = APC.waitAbort ∨ s.apc = APC.atOnce) ∧
    (s.cpc = CPC.inWait ∨ s.cpc = CPC.atOnce)) ∧
  (s.once = some Owner.abortPath → s.onceDone = false →
    s.resultsSent = [] ∧ (s.apc = APC.inWait ∨ s.apc = APC.atSend) ∧
    (s.cpc = CPC.inWait ∨ s.cpc = CPC.atOnce)) ∧
  (s.once = some Owner.abortPath → s.onceDone = true →
    s.resultsSent = [canceledResult] ∧ s.apc = APC.done ∧
    (s.cpc = CPC.inWait ∨ s.cpc = CPC.atOnce ∨ s.cpc = CPC.done)) ∧
  (s.once = some Owner.compPath → s.onceDone = false →
    s.resultsSent = [] ∧ s.cpc = CPC.atSend ∧
    (s.apc = APC.waitAbort ∨ s.apc = APC.atOnce)) ∧
  (s.once = some Owner.compPath → s.onceDone = true →
    s.resultsSent = [natResult p] ∧ s.cpc = CPC.done ∧
    (s.apc = APC.waitAbort ∨ s.apc = APC.atOnce ∨ s.apc = APC.done))

/-! ## Spawn-failure path of build

When `cmd.Start()` returns an error, `build` immediately sends the failure
result on the (capacity-1, empty) resultCh and returns both channels without
spawning either goroutine. The only events afterwards are abort sends by the
caller; nothing ever receives from abortCh. -/

/-- State of a session whose process failed to spawn. -/
structure FailState where
  abortBuf : Nat
  abortSends : Nat
  resultsSent : List BuildResult
deriving DecidableEq, Repr

/-- Session state right after `build` returns on the `cmd.Start()` error
branch: the failure result is already in the result buffer. -/
def failInit (err : String) : FailState :=
  { abortBuf := 0, abortSends := 0, resultsSent := [spawnFailResult err] }

/-- Steps available on a spawn-failed session: only abort sends by the
caller, enabled while the capacity-1 abort buffer has space; there is no
receiver. -/
inductive FailStep : FailState → FailState → Prop
  | envAbort {s : FailState} :
      s.abortBuf < abortChCap →
      FailStep s { s with abortBuf := s.abortBuf + 1, abortSends := s.abortSends + 1 }

/-- Reachable states of a spawn-failed session. -/
def FailReach (err : String) (s : FailState) : Prop :=
  Relation.ReflTransGen FailStep (failInit err) s

/-- Whether, from the spawn-failed session state with one abort request
already buffered, any reachable state ever has room for a second abort send. -/
def secondAbortEverEnabled : Prop :=
  ∃ t : FailState,
    Relation.ReflTransGen FailStep
      { abortBuf := 1, abortSends := 1, resultsSent := [spawnFailResult "spawn error"] } t ∧
    t.abortBuf < abortChCap

/-! ## Orchestrator event loop

`App.main` writes BUILDING to the status file (when configured), starts the
first build, sets `active := true`, and then loops on a select between the
change channel and the current result channel. The loop below is driven by a
scheduler-resolved event list: a change event carries the result that the
synchronous drain `res := <-buildResultCh` would return after the abort. -/

/-- One resolved iteration input of the select loop. -/
inductive LoopEvent
  | change (drained : BuildResult)
  | result (r : BuildResult)

/-- Observable outcome of a run of the loop: status-file texts written in
order, results reported in order, and whether the loop returned because of
the once flag. -/
structure LoopOut where
  writes : List String
  reports : List BuildResult
  finished : Bool
deriving DecidableEq

/-- Status-file texts written by `report`: `ok\n\n<output>` on success,
`FAILED\n\n<output>` otherwise, and nothing when no status file is
configured. -/
def reportWrites (hasStatus : Bool) (r : BuildResult) : List String :=
  if hasStatus then
    if r.Success then ["ok\n\n" ++ r.Output] else ["FAILED\n\n" ++ r.Output]
  else []

/-- Status-file text written when a build is started. -/
def buildingWrites (hasStatus : Bool) : List String :=
  if hasStatus then ["BUILDING"] else []

/-- Status-file text written right after the abort request is sent. -/
def cancelingWrites (hasStatus : Bool) : List String :=
  if hasStatus then ["CANCELING"] else []

/-- The select loop of `App.main`. On a change while a session is active:
abort, write CANCELING, drain the result, report it, return when once, else
write BUILDING and restart; on a change while inactive: write BUILDING and
restart; on a result: report it, mark inactive, return when once. -/
def appLoop (hasStatus onceFlag : Bool) : Bool → List LoopEvent → LoopOut
  | _, [] => { writes := [], reports := [], finished := false }
  | active, LoopEvent.change r :: rest =>
      if active then
        if onceFlag then
          { writes := cancelingWrites hasStatus ++ reportWrites hasStatus r,
            reports := [r], finished := true }
        else
          let o := appLoop hasStatus onceFlag true rest
          { writes := cancelingWrites hasStatus ++ reportWrites hasStatus r ++
              buildingWrites hasStatus ++ o.writes,
            reports := r :: o.reports, finished := o.finished }
      else
        let o := appLoop hasStatus onceFlag true rest
        { writes := buildingWrites hasStatus ++ o.writes,
          reports := o.reports, finished := o.finished }
  | _, LoopEvent.result r :: rest =>
      if onceFlag then
        { writes := reportWrites hasStatus r, reports := [r], finished := true }
      else
        let o := appLoop hasStatus onceFlag false rest
        { writes := reportWrites hasStatus r ++ o.writes,
          reports := r :: o.reports, finished := o.finished }

/-- `App.main` around the loop: the initial BUILDING write and first build,
then the loop with `active = true`. -/
def appMain (hasStatus onceFlag : Bool) (evs : List LoopEvent) : LoopOut :=
  let o := appLoop hasStatus onceFlag true evs
  { writes := buildingWrites hasStatus ++ o.writes,
    reports := o.reports, finished := o.finished }

/-! ## watch -/

/-- How a call to `watch` ends. -/
inductive WatchOutcome
  | panicked
  | returned (eventSourceRunning : Bool)
deriving DecidableEq, Repr

/-- The `watch` function: build the fswatch command, take its stdout pipe
(panic if that fails), spawn the scanner goroutine, then call `cmd.Start()`
discarding its error and return. The scanner can only ever produce change
events when the fswatch process actually started. -/
def watch (pipeOk : Bool) (startOk : Bool) : WatchOutcome :=
  if pipeOk = false then WatchOutcome.panicked
  else WatchOutcome.returned startOk

/-! ## Path helpers

`Homeopathy` and `RerootPath` from the source. The Go standard library
collaborators are parameters: `join` is path.Join, `clean` is path.Clean and
`ee` is os.ExpandEnv. The user home directory lookup is the `usr` parameter:
`none` models a failing user.Current call, and an empty string models a user
with no home directory set. -/

/-- Go path.IsAbs: a path is absolute when it starts with a slash. -/
def pathIsAbs (p : String) : Bool :=
  p.take 1 = "/"

/-- The homefirst closure inside Homeopathy: resolve the home directory and
join the remainder onto it. -/
def homefirst (join : String → String → String) (usr : Option String) (q : String) :
    Except String String :=
  match usr with
  | none => Except.error "user.Current failed"
  | some dir =>
      if dir.length = 0 then Except.error "no user homedir set"
      else Except.ok (join dir q)

/-- Homeopathy: expand a leading tilde. The source switches on
`len(p) == 1 && p == "~"` and on `len(p) >= 2 && p[:2] == "~/"` (byte
comparisons, equivalent to these character comparisons on UTF-8 text);
every other input falls through unchanged with a nil error. -/
def Homeopathy (join : String → String → String) (usr : Option String) (p : String) :
    Except String String :=
  if p = "~" then homefirst join usr ""
  else if p.take 2 = "~/" then homefirst join usr (p.drop 2)
  else Except.ok p

/-- RerootPath: tilde-expand, expand environment variables, join onto
`relto` when still relative, and clean. -/
def RerootPath (join : String → String → String) (clean ee : String → String)
    (usr : Option String) (p relto : String) : Except String String :=
  match Homeopathy join usr p with
  | Except.error e => Except.error e
  | Except.ok p1 =>
      let p2 := ee p1
      let p3 := if pathIsAbs p2 then p2 else join relto p2
      Except.ok (clean p3)

/-- Substring containment on strings. -/
def strContains (s sub : String) : Prop :=
  ∃ l r : String, s = l ++ sub ++ r

/-! ## Concrete runs and states used in later theorems -/

/-- A process run with exit status zero and empty output. -/
def pZero : ProcRun := { exitErr := none, stdoutS := "", stderrS := "" }

/-- A process run that exits non-zero writing boom to stderr. -/
def pBoom : ProcRun := { exitErr := some "exit status 1", stdoutS := "", stderrS := "boom" }

/-- Session state after one abort send. -/
def stAbortSent : SState :=
  { apc := APC.waitAbort, cpc := CPC.inWait, once := none, onceDone := false,
    procExited := false, abortBuf := 1, abortSends := 1, resultsSent := [] }

/-- Session state after the abort-watcher consumed the abort request. -/
def stAbortRecvd : SState :=
  { apc := APC.atOnce, cpc := CPC.inWait, once := none, onceDone := false,
    procExited := false, abortBuf := 0, abortSends := 1, resultsSent := [] }

/-- Session state after the abort path claimed the once guard. -/
def stAbortClaimed : SState :=
  { apc := APC.inWait, cpc := CPC.inWait, once := some Owner.abortPath, onceDone := false,
    procExited := false, abortBuf := 0, abortSends := 1, resultsSent := [] }

/-- Session state after the signaled process exited. -/
def stAbortExited : SState :=
  { apc := APC.inWait, cpc := CPC.inWait, once := some Owner.abortPath, onceDone := false,
    procExited := true, abortBuf := 0, abortSends := 1, resultsSent := [] }

/-- Session state with the abort path about to send the canceled result. -/
def stAbortAtSend : SState :=
  { apc := APC.atSend, cpc := CPC.inWait, once := some Owner.abortPath, onceDone := false,
    procExited := true, abortBuf := 0, abortSends := 1, resultsSent := [] }

/-- Session state after the abort path delivered the canceled result. -/
def stAbortDelivered : SState :=
  { apc := APC.done, cpc := CPC.inWait, once := some Owner.abortPath, onceDone := true,
    procExited := true, abortBuf := 0, abortSends := 1, resultsSent := [canceledResult] }

/-- Session state after the process exited with no abort requested. -/
def stNatExited : SState :=
  { apc := APC.waitAbort, cpc := CPC.inWait, once := none, onceDone := false,
    procExited := true, abortBuf := 0, abortSends := 0, resultsSent := [] }

/-- Session state after the completion-watcher woke from cmd.Wait. -/
def stNatWoke : SState :=
  { apc := APC.waitAbort, cpc := CPC.atOnce, once := none, onceDone := false,
    procExited := true, abortBuf := 0, abortSends := 0, resultsSent := [] }

/-- Session state after the completion path claimed the once guard. -/
def stNatClaimed : SState :=
  { apc := APC.waitAbort, cpc := CPC.atSend, once := some Owner.compPath, onceDone := false,
    procExited := true, abortBuf := 0, abortSends := 0, resultsSent := [] }

/-- Session state after the completion path delivered the natural result of
the boom run. -/
def stNatDelivered : SState :=
  { apc := APC.waitAbort, cpc := CPC.done, once := some Owner.compPath, onceDone := true,
    procExited := true, abortBuf := 0, abortSends := 0, resultsSent := [natResult pBoom] }

/-- Spawn-failed session state after one abort send. -/
def failAfterOneAbort : FailState :=
  { abortBuf := 1, abortSends := 1, resultsSent := [spawnFailResult "spawn error"] }

/-! ## Session invariant -/

/-- The initial session state satisfies the invariant. -/
theorem sessionInv_init (p : ProcRun) : SessionInv p sessionInit := by
  refine ⟨?_, ?_, ?_, ?_, ?_, ?_, ?_, ?_⟩ <;> simp [sessionInit, abortChCap]

/-- When the abort-watcher is inside the Do body before the send, the once
guard is claimed by the abort path and the body has not finished. -/
theorem apc_body_once {p : ProcRun} {s : SState} (h : SessionInv p s)
    (hA : s.apc = APC.inWait ∨ s.apc = APC.atSend) :
    s.once = some Owner.abortPath ∧ s.onceDone = false := by
  obtain ⟨-, -, -, h4, h5, h6, h7, h8⟩ := h
  cases hO : s.once with
  | none =>
      exfalso
      have hap := (h4 hO).2.2.1
      rcases hA with hA | hA <;> rcases hap with hap | hap <;> rw [hA] at hap <;> simp at hap
  | some ow =>
      cases ow with
      | abortPath =>
          cases hD : s.onceDone with
          | false => exact ⟨rfl, rfl⟩
          | true =>
              exfalso
              have hap := (h6 hO hD).2.1
              rcases hA with hA | hA <;> rw [hA] at hap <;> simp at hap
      | compPath =>
          exfalso
          cases hD : s.onceDone with
          | false =>
              have hap := (h7 hO hD).2.2
              rcases hA with hA | hA <;> rcases hap with hap | hap <;> rw [hA] at hap <;>
                simp at hap
          | true =>
              have hap := (h8 hO hD).2.2
              rcases hA with hA | hA <;>
                rcases hap with hap | hap | hap <;> rw [hA] at hap <;> simp at hap

/-- When the completion-watcher is at its send, the once guard is claimed by
the completion path and the body has not finished. -/
theorem cpc_send_once {p : ProcRun} {s : SState} (h : SessionInv p s)
    (hC : s.cpc = CPC.atSend) :
    s.once = some Owner.compPath ∧ s.onceDone = false := by
  obtain ⟨-, -, -, h4, h5, h6, h7, h8⟩ := h
  cases hO : s.once with
  | none =>
      exfalso
      have hcp := (h4 hO).2.2.2
      rcases hcp with hcp | hcp <;> rw [hC] at hcp <;> simp at hcp
  | some ow =>
      cases ow with
      | abortPath =>
          exfalso
          cases hD : s.onceDone with
          | false =>
              have hcp := (h5 hO hD).2.2
              rcases hcp with hcp | hcp <;> rw [hC] at hcp <;> simp at hcp
          | true =>
              have hcp := (h6 hO hD).2.2
              rcases hcp with hcp | hcp | hcp <;> rw [hC] at hcp <;> simp at hcp
      | compPath =>
          cases hD : s.onceDone with
          | false => exact ⟨rfl, rfl⟩
          | true =>
              exfalso
              have hcp := (h8 hO hD).2.1
              rw [hC] at hcp
              simp at hcp

/-- Every step of a live session preserves the invariant. -/
theorem sessionInv_step {p : ProcRun} {s t : SState}
    (h : SessionInv p s) (hst : SessionStep p s t) : SessionInv p t := by
  obtain ⟨h1, h2, h3, h4, h5, h6, h7, h8⟩ := h
  cases hst with
  | envAbort hg =>
      simp only [abortChCap] at hg
      refine ⟨?_, ?_, ?_, h4, h5, h6, h7, h8⟩ <;> dsimp only
      · simp only [abortChCap]; omega
      · intro hA; rw [h2 hA]
      · intro hA; rw [h3 hA]
  | procExit hp =>
      exact ⟨h1, h2, h3, h4, h5, h6, h7, h8⟩
  | abortRecv hA hb =>
      have hbs := h2 hA
      refine ⟨?_, ?_, ?_, ?_, ?_, ?_, ?_, ?_⟩ <;> dsimp only
      · omega
      · intro hx; simp at hx
      · intro _; omega
      · intro hO
        obtain ⟨hr, hd, -, hcp⟩ := h4 hO
        exact ⟨hr, hd, Or.inr rfl, hcp⟩
      · intro hO hD
        exfalso
        have hap := (h5 hO hD).2.1
        rcases hap with hap | hap <;> rw [hA] at hap <;> simp at hap
      · intro hO hD
        exfalso
        have := (h6 hO hD).2.1
        rw [hA] at this; simp at this
      · intro hO hD
        obtain ⟨hr, hcp, -⟩ := h7 hO hD
        exact ⟨hr, hcp, Or.inr rfl⟩
      · intro hO hD
        obtain ⟨hr, hcp, -⟩ := h8 hO hD
        exact ⟨hr, hcp, Or.inr (Or.inl rfl)⟩
  | abortClaim hA hO =>
      obtain ⟨hr, hd, -, hcp⟩ := h4 hO
      refine ⟨h1, ?_, ?_, ?_, ?_, ?_, ?_, ?_⟩ <;> dsimp only
      · intro hx; simp at hx
      · intro _; exact h3 (by rw [hA]; simp)
      · intro hx; simp at hx
      · intro _ _; exact ⟨hr, Or.inl rfl, hcp⟩
      · intro _ hD; rw [hd] at hD; simp at hD
      · intro hx; simp at hx
      · intro hx; simp at hx
  | abortSkip hA hO hD =>
      refine ⟨h1, ?_, ?_, ?_, ?_, ?_, ?_, ?_⟩ <;> dsimp only
      · intro hx; simp at hx
      · intro _; exact h3 (by rw [hA]; simp)
      · intro hx; rw [hO] at hx; simp at hx
      · intro hx; rw [hO] at hx; simp at hx
      · intro hx; rw [hO] at hx; simp at hx
      · intro _ hDf
        rw [hD] at hDf
        simp at hDf
      · intro _ _
        obtain ⟨hr, hcp, -⟩ := h8 hO hD
        exact ⟨hr, hcp, Or.inr (Or.inr rfl)⟩
  | abortWaitExit hA hp =>
      obtain ⟨hO, hD⟩ := apc_body_once ⟨h1, h2, h3, h4, h5, h6, h7, h8⟩ (Or.inl hA)
      obtain ⟨hr, -, hcp⟩ := h5 hO hD
      refine ⟨h1, ?_, ?_, ?_, ?_, ?_, ?_, ?_⟩ <;> dsimp only
      · intro hx; simp at hx
      · intro _; exact h3 (by rw [hA]; simp)
      · intro hx; rw [hO] at hx; simp at hx
      · intro _ _; exact ⟨hr, Or.inr rfl, hcp⟩
      · intro _ hDt; rw [hD] at hDt; simp at hDt
      · intro hx; rw [hO] at hx; simp at hx
      · intro hx; rw [hO] at hx; simp at hx
  | abortSend hA hl =>
      obtain ⟨hO, hD⟩ := apc_body_once ⟨h1, h2, h3, h4, h5, h6, h7, h8⟩ (Or.inr hA)
      obtain ⟨hr, -, hcp⟩ := h5 hO hD
      refine ⟨h1, ?_, ?_, ?_, ?_, ?_, ?_, ?_⟩ <;> dsimp only
      · intro hx; simp at hx
      · intro _; exact h3 (by rw [hA]; simp)
      · intro hx; rw [hO] at hx; simp at hx
      · intro _ hDf; simp at hDf
      · intro _ _
        refine ⟨?_, rfl, ?_⟩
        · simp [hr]
        · rcases hcp with hcp | hcp
          · exact Or.inl hcp
          · exact Or.inr (Or.inl hcp)
      · intro hx; rw [hO] at hx; simp at hx
      · intro hx; rw [hO] at hx; simp at hx
  | compWaitExit hC hp =>
      refine ⟨h1, h2, h3, ?_, ?_, ?_, ?_, ?_⟩ <;> dsimp only
      · intro hO
        obtain ⟨hr, hd, hap, -⟩ := h4 hO
        exact ⟨hr, hd, hap, Or.inr rfl⟩
      · intro hO hD
        obtain ⟨hr, hap, -⟩ := h5 hO hD
        exact ⟨hr, hap, Or.inr rfl⟩
      · intro hO hD
        obtain ⟨hr, hap, -⟩ := h6 hO hD
        exact ⟨hr, hap, Or.inr (Or.inl rfl)⟩
      · intro hO hD
        exfalso
        have := (h7 hO hD).2.1
        rw [hC] at this; simp at this
      · intro hO hD
        exfalso
        have := (h8 hO hD).2.1
        rw [hC] at this; simp at this
  | compClaim hC hO =>
      obtain ⟨hr, hd, hap, -⟩ := h4 hO
      refine ⟨h1, h2, h3, ?_, ?_, ?_, ?_, ?_⟩ <;> dsimp only
      · intro hx; simp at hx
      · intro hx; simp at hx
      · intro hx; simp at hx
      · intro _ _; exact ⟨hr, rfl, hap⟩
      · intro _ hD; rw [hd] at hD; simp at hD
  | compSkip hC hO hD =>
      refine ⟨h1, h2, h3, ?_, ?_, ?_, ?_, ?_⟩ <;> dsimp only
      · intro hx; rw [hO] at hx; simp at hx
      · intro _ hDf; rw [hD] at hDf; simp at hDf
      · intro _ _
        obtain ⟨hr, hap, -⟩ := h6 hO hD
        exact ⟨hr, hap, Or.inr (Or.inr rfl)⟩
      · intro hx; rw [hO] at hx; simp at hx
      · intro hx; rw [hO] at hx; simp at hx
  | compSend hC hl =>
      obtain ⟨hO, hD⟩ := cpc_send_once ⟨h1, h2, h3, h4, h5, h6, h7, h8⟩ hC
      obtain ⟨hr, -, hap⟩ := h7 hO hD
      refine ⟨h1, h2, h3, ?_, ?_, ?_, ?_, ?_⟩ <;> dsimp only
      · intro hx; rw [hO] at hx; simp at hx
      · intro hx; rw [hO] at hx; simp at hx
      · intro hx; rw [hO] at hx; simp at hx
      · intro _ hDf; simp at hDf
      · intro _ _
        refine ⟨?_, rfl, ?_⟩
        · simp [hr]
        · rcases hap with hap | hap
          · exact Or.inl hap
          · exact Or.inr (Or.inl hap)

/-- Every reachable session state satisfies the invariant. -/
theorem sessionReach_inv {p : ProcRun} {s : SState} (h : SessionReach p s) :
    SessionInv p s := by
  induction h with
  | refl => exact sessionInv_init p
  | tail _ hstep ih => exact sessionInv_step ih hstep

/-- The list of results ever sent in a session is empty or a singleton, and
any sent result is the canceled result or the natural result. -/
theorem sessionInv_results {p : ProcRun} {s : SState} (h : SessionInv p s) :
    s.resultsSent = [] ∨ s.resultsSent = [canceledResult] ∨ s.resultsSent = [natResult p] := by
  obtain ⟨-, -, -, h4, h5, h6, h7, h8⟩ := h
  cases hO : s.once with
  | none => exact Or.inl (h4 hO).1
  | some ow =>
      cases ow with
      | abortPath =>
          cases hD : s.onceDone with
          | false => exact Or.inl (h5 hO hD).1
          | true => exact Or.inr (Or.inl (h6 hO hD).1)
      | compPath =>
          cases hD : s.onceDone with
          | false => exact Or.inl (h7 hO hD).1
          | true => exact Or.inr (Or.inr (h8 hO hD).1)

/-! ## Fail-model lemmas -/

/-- The spawn-failure result list never changes: it stays the single
immediate failure result. -/
theorem failReach_results {err : String} {s : FailState} (h : FailReach err s) :
    s.resultsSent = [spawnFailResult err] := by
  induction h with
  | refl => rfl
  | tail _ hstep ih => cases hstep with | envAbort hg => exact ih

/-- From any spawn-failed state whose abort buffer is full, the buffer stays
full forever: the only step is an abort send, which needs buffer space. -/
theorem failStep_buffer_stays_full {s t : FailState} (h : Relation.ReflTransGen FailStep s t)
    (hb : s.abortBuf = 1) : t.abortBuf = 1 := by
  induction h with
  | refl => exact hb
  | tail _ hstep ih =>
      cases hstep with
      | envAbort hg =>
          rw [ih] at hg
          simp [abortChCap] at hg

/-! ## Reachable concrete session states -/

/-- The state with one abort request consumed is reachable. -/
theorem reach_stAbortRecvd : SessionReach pZero stAbortRecvd := by
  have h1 : SessionStep pZero sessionInit stAbortSent :=
    SessionStep.envAbort (by simp [sessionInit, abortChCap])
  have h2 : SessionStep pZero stAbortSent stAbortRecvd :=
    SessionStep.abortRecv rfl (by simp [stAbortSent])
  exact Relation.ReflTransGen.head h1 (Relation.ReflTransGen.head h2 Relation.ReflTransGen.refl)

/-- The state where the abort path has delivered the canceled result is
reachable. -/
theorem reach_stAbortDelivered : SessionReach pZero stAbortDelivered := by
  have h3 : SessionStep pZero stAbortRecvd stAbortClaimed :=
    SessionStep.abortClaim rfl rfl
  have h4 : SessionStep pZero stAbortClaimed stAbortExited :=
    SessionStep.procExit rfl
  have h5 : SessionStep pZero stAbortExited stAbortAtSend :=
    SessionStep.abortWaitExit rfl rfl
  have h6 : SessionStep pZero stAbortAtSend stAbortDelivered :=
    SessionStep.abortSend rfl (by simp [stAbortAtSend, resultChCap])
  exact Relation.ReflTransGen.trans reach_stAbortRecvd
    (Relation.ReflTransGen.head h3
      (Relation.ReflTransGen.head h4
        (Relation.ReflTransGen.head h5
          (Relation.ReflTransGen.head h6 Relation.ReflTransGen.refl))))

/-- The state where the completion path has delivered the natural result of
the boom run is reachable. -/
theorem reach_stNatDelivered : SessionReach pBoom stNatDelivered := by
  have h1 : SessionStep pBoom sessionInit stNatExited :=
    SessionStep.procExit rfl
  have h2 : SessionStep pBoom stNatExited stNatWoke :=
    SessionStep.compWaitExit rfl rfl
  have h3 : SessionStep pBoom stNatWoke stNatClaimed :=
    SessionStep.compClaim rfl rfl
  have h4 : SessionStep pBoom stNatClaimed stNatDelivered :=
    SessionStep.compSend rfl (by simp [stNatClaimed, resultChCap])
  exact Relation.ReflTransGen.head h1
    (Relation.ReflTransGen.head h2
      (Relation.ReflTransGen.head h3
        (Relation.ReflTransGen.head h4 Relation.ReflTransGen.refl)))

/-- The spawn-failed state with one abort request buffered is reachable. -/
theorem reach_failAfterOneAbort : FailReach "spawn error" failAfterOneAbort := by
  have h1 : FailStep (failInit "spawn error") failAfterOneAbort :=
    FailStep.envAbort (by simp [failInit, abortChCap])
  exact Relation.ReflTransGen.head h1 Relation.ReflTransGen.refl

/-! ## Event-loop lemmas -/

/-- In single-run mode the loop reports at most one result, and it ended via
the once flag exactly when it reported one. -/
theorem appLoop_once_mode (hs : Bool) :
    ∀ (evs : List LoopEvent) (active : Bool),
      (appLoop hs true active evs).reports.length ≤ 1 ∧
      ((appLoop hs true active evs).finished = true ↔
        (appLoop hs true active evs).reports ≠ []) := by
  intro evs
  induction evs with
  | nil => intro active; simp [appLoop]
  | cons e rest ih =>
      intro active
      cases e with
      | change r =>
          cases active with
          | false => simpa [appLoop] using ih true
          | true => simp [appLoop]
      | result r => simp [appLoop]

/-- Every status-file text written by one loop iteration set is one of the
four literal shapes. -/
theorem appLoop_writes_shapes (hs f : Bool) :
    ∀ (evs : List LoopEvent) (active : Bool) (w : String),
      w ∈ (appLoop hs f active evs).writes →
      w = "BUILDING" ∨ w = "CANCELING" ∨
        (∃ o, w = "ok\n\n" ++ o) ∨ (∃ o, w = "FAILED\n\n" ++ o) := by
  intro evs
  induction evs with
  | nil => intro active w hw; simp [appLoop] at hw
  | cons e rest ih =>
      intro active w hw
      have hbuild : w ∈ buildingWrites hs → w = "BUILDING" := by
        intro hx
        unfold buildingWrites at hx
        cases hs <;> simp at hx
        exact hx
      have hcancel : w ∈ cancelingWrites hs → w = "CANCELING" := by
        intro hx
        unfold cancelingWrites at hx
        cases hs <;> simp at hx
        exact hx
      have hreport : ∀ r : BuildResult, w ∈ reportWrites hs r →
          (∃ o, w = "ok\n\n" ++ o) ∨ (∃ o, w = "FAILED\n\n" ++ o) := by
        intro r hx
        unfold reportWrites at hx
        cases hs with
        | false => simp at hx
        | true =>
            cases hS : r.Success <;> rw [hS] at hx <;> simp at hx
            · exact Or.inr ⟨r.Output, hx⟩
            · exact Or.inl ⟨r.Output, hx⟩
      cases e with
      | change r =>
          cases active with
          | false =>
              rw [show appLoop hs f false (LoopEvent.change r :: rest) =
                  { writes := buildingWrites hs ++ (appLoop hs f true rest).writes,
                    reports := (appLoop hs f true rest).reports,
                    finished := (appLoop hs f true rest).finished } from rfl] at hw
              simp only [List.mem_append] at hw
              rcases hw with hw | hw
              · exact Or.inl (hbuild hw)
              · exact ih true w hw
          | true =>
              cases f with
              | true =>
                  rw [show appLoop hs true true (LoopEvent.change r :: rest) =
                      { writes := cancelingWrites hs ++ reportWrites hs r,
                        reports := [r], finished := true } from rfl] at hw
                  simp only [List.mem_append] at hw
                  rcases hw with hw | hw
                  · exact Or.inr (Or.inl (hcancel hw))
                  · exact Or.inr (Or.inr (hreport r hw))
              | false =>
                  rw [show appLoop hs false true (LoopEvent.change r :: rest) =
                      { writes := cancelingWrites hs ++ reportWrites hs r ++
                          buildingWrites hs ++ (appLoop hs false true rest).writes,
                        reports := r :: (appLoop hs false true rest).reports,
                        finished := (appLoop hs false true rest).finished } from rfl] at hw
                  simp only [List.mem_append] at hw
                  rcases hw with ((hw | hw) | hw) | hw
                  · exact Or.inr (Or.inl (hcancel hw))
                  · exact Or.inr (Or.inr (hreport r hw))
                  · exact Or.inl (hbuild hw)
                  · exact ih true w hw
      | result r =>
          cases f with
          | true =>
              rw [show appLoop hs true active (LoopEvent.result r :: rest) =
                  { writes := reportWrites hs r, reports := [r], finished := true } from rfl] at hw
              exact Or.inr (Or.inr (hreport r hw))
          | false =>
              rw [show appLoop hs false active (LoopEvent.result r :: rest) =
                  { writes := reportWrites hs r ++ (appLoop hs false false rest).writes,
                    reports := r :: (appLoop hs false false rest).reports,
                    finished := (appLoop hs false false rest).finished } from rfl] at hw
              simp only [List.mem_append] at hw
              rcases hw with hw | hw
              · exact Or.inr (Or.inr (hreport r hw))
              · exact ih false w hw

/-! ## Claims -/

/-- Claim C1: for every build session created by build, at most one
BuildResult is ever sent on the result channel — the abort path and the
natural-completion path race through the shared sendResultOnce guard, the
loser detects the consumed guard and suppresses its own send, under every
interleaving including a concurrent abort-and-natural-exit race; the same
bound holds for a session whose spawn failed. -/
theorem c1_at_most_one_result_sent :
    (∀ (p : ProcRun) (s : SState), SessionReach p s → s.resultsSent.length ≤ 1) ∧
    (∀ (err : String) (s : FailState), FailReach err s → s.resultsSent.length ≤ 1) := by
  constructor
  · intro p s h
    rcases sessionInv_results (sessionReach_inv h) with hr | hr | hr <;> simp [hr]
  · intro err s h
    simp [failReach_results h]

theorem c1_at_most_one_result_sent_witness :
    stAbortDelivered.resultsSent.length ≤ 1 :=
  c1_at_most_one_result_sent.1 pZero stAbortDelivered reach_stAbortDelivered

/-- Claim C2: when the build command fails to spawn, build still returns
normally and the session result channel already carries exactly one
BuildResult with Success equal to false; no later state of such a session
ever carries anything else, so exactly one result is delivered. -/
theorem c2_spawn_failure_immediate_result :
    ∀ (err : String) (s : FailState), FailReach err s →
      s.resultsSent = [{ Success := false, Output := "Build failed to start: " ++ err }] := by
  intro err s h
  exact failReach_results h

theorem c2_spawn_failure_immediate_result_witness :
    (failInit "boom").resultsSent =
      [{ Success := false, Output := "Build failed to start: boom" }] :=
  c2_spawn_failure_immediate_result "boom" (failInit "boom") Relation.ReflTransGen.refl

/-- Claim C3: whenever the abort path performed the result delivery (it owns
the sendResultOnce guard and a result has been sent), the delivered result
is Success false with output exactly the text Build canceled, for every
process run, so independently of any partial stdout or stderr. -/
theorem c3_cancel_result_text :
    ∀ (p : ProcRun) (s : SState), SessionReach p s → s.once = some Owner.abortPath →
      s.resultsSent ≠ [] →
      s.resultsSent = [{ Success := false, Output := "Build canceled" }] := by
  intro p s h hO hne
  obtain ⟨-, -, -, -, h5, h6, -, -⟩ := sessionReach_inv h
  cases hD : s.onceDone with
  | false => exact absurd (h5 hO hD).1 hne
  | true => exact (h6 hO hD).1

theorem c3_cancel_result_text_witness :
    stAbortDelivered.resultsSent = [{ Success := false, Output := "Build canceled" }] :=
  c3_cancel_result_text pZero stAbortDelivered reach_stAbortDelivered rfl (by decide)

/-- Claim C4: both channels created by build have buffer capacity one; a
goroutine about to send the single session result always finds buffer space,
and as long as no abort request has been sent the abort channel also has
space, so those sends never block. -/
theorem c4_channel_capacities_nonblocking :
    resultChCap = 1 ∧ abortChCap = 1 ∧
    (∀ (p : ProcRun) (s : SState), SessionReach p s →
      s.apc = APC.atSend ∨ s.cpc = CPC.atSend → s.resultsSent.length < resultChCap) ∧
    (∀ (p : ProcRun) (s : SState), SessionReach p s →
      s.abortSends = 0 → s.abortBuf < abortChCap) := by
  refine ⟨rfl, rfl, ?_, ?_⟩
  · intro p s h hsend
    have hinv := sessionReach_inv h
    rcases hsend with hA | hC
    · obtain ⟨hO, hD⟩ := apc_body_once hinv (Or.inr hA)
      obtain ⟨-, -, -, -, h5, -, -, -⟩ := hinv
      simp [(h5 hO hD).1, resultChCap]
    · obtain ⟨hO, hD⟩ := cpc_send_once hinv hC
      obtain ⟨-, -, -, -, -, -, h7, -⟩ := hinv
      simp [(h7 hO hD).1, resultChCap]
  · intro p s h h0
    obtain ⟨h1, h2, h3, -, -, -, -, -⟩ := sessionReach_inv h
    by_cases hA : s.apc = APC.waitAbort
    · have hb := h2 hA
      simp only [abortChCap]
      omega
    · have hb := h3 hA
      simp only [abortChCap]
      omega

theorem c4_channel_capacities_nonblocking_witness :
    sessionInit.abortBuf < abortChCap :=
  c4_channel_capacities_nonblocking.2.2.2 pZero sessionInit Relation.ReflTransGen.refl rfl

/-- Claim C5, counterexample: a completion-path delivery whose run exited
non-zero with stderr boom is reachable, and the delivered output is the
formatted line, not the bare concatenation of stdout and stderr. -/
theorem c5_output_not_bare_concatenation :
    SessionReach pBoom stNatDelivered ∧
    stNatDelivered.resultsSent =
      [{ Success := false, Output := "exit error exit status 1 stdout:'' stderr:'boom'" }] ∧
    ({ Success := false, Output := "exit error exit status 1 stdout:'' stderr:'boom'" } :
        BuildResult).Output ≠ pBoom.stdoutS ++ pBoom.stderrS := by
  refine ⟨reach_stNatDelivered, ?_, ?_⟩ <;> decide

/-- Claim C5, amended: when the completion path performed the delivery, the
result has Success true exactly when the exit error is nil, and its output
is the single formatted line exit error .. stdout:.. stderr:.., which
contains the captured stdout and the captured stderr as substrings. -/
theorem c5_amended_completion_result :
    ∀ (p : ProcRun) (s : SState), SessionReach p s → s.once = some Owner.compPath →
      s.resultsSent ≠ [] →
      s.resultsSent = [natResult p] ∧
      ((natResult p).Success = true ↔ p.exitErr = none) ∧
      strContains (natResult p).Output p.stdoutS ∧
      strContains (natResult p).Output p.stderrS := by
  intro p s h hO hne
  obtain ⟨-, -, -, -, -, -, h7, h8⟩ := sessionReach_inv h
  cases hD : s.onceDone with
  | false => exact absurd (h7 hO hD).1 hne
  | true =>
      refine ⟨(h8 hO hD).1, ?_, ?_, ?_⟩
      · simp [natResult, Option.isNone_iff_eq_none]
      · exact ⟨"exit error " ++ errString p.exitErr ++ " stdout:'",
          "' stderr:'" ++ p.stderrS ++ "'",
          by simp [natResult, natOutput, String.append_assoc]⟩
      · exact ⟨"exit error " ++ errString p.exitErr ++ " stdout:'" ++ p.stdoutS ++ "' stderr:'",
          "'", by simp [natResult, natOutput, String.append_assoc]⟩

theorem c5_amended_completion_result_witness :
    stNatDelivered.resultsSent = [natResult pBoom] ∧
    strContains (natResult pBoom).Output pBoom.stderrS :=
  ⟨(c5_amended_completion_result pBoom stNatDelivered reach_stNatDelivered rfl
      (by decide)).1,
   (c5_amended_completion_result pBoom stNatDelivered reach_stNatDelivered rfl
      (by decide)).2.2.2⟩

/-- Claim C6: every status-file text the orchestrator writes is one of the
four literal shapes BUILDING, CANCELING, ok-blank-line-output or
FAILED-blank-line-output; reporting a successful result writes the ok prefix
followed by the output, and a failed result the FAILED prefix. -/
theorem c6_status_file_four_shapes :
    (∀ (hs f : Bool) (evs : List LoopEvent) (w : String),
      w ∈ (appMain hs f evs).writes →
      w = "BUILDING" ∨ w = "CANCELING" ∨
        (∃ o, w = "ok\n\n" ++ o) ∨ (∃ o, w = "FAILED\n\n" ++ o)) ∧
    (∀ r : BuildResult, r.Success = true → reportWrites true r = ["ok\n\n" ++ r.Output]) ∧
    (∀ r : BuildResult, r.Success = false → reportWrites true r = ["FAILED\n\n" ++ r.Output]) := by
  refine ⟨?_, ?_, ?_⟩
  · intro hs f evs w hw
    simp only [appMain, List.mem_append] at hw
    rcases hw with hw | hw
    · left
      unfold buildingWrites at hw
      cases hs <;> simp at hw
      exact hw
    · exact appLoop_writes_shapes hs f evs true w hw
  · intro r hS; simp [reportWrites, hS]
  · intro r hS; simp [reportWrites, hS]

theorem c6_status_file_four_shapes_witness :
    ("BUILDING" = "BUILDING" ∨ "BUILDING" = "CANCELING" ∨
      (∃ o, "BUILDING" = "ok\n\n" ++ o) ∨ (∃ o, "BUILDING" = "FAILED\n\n" ++ o)) ∧
    reportWrites true { Success := true, Output := "out" } = ["ok\n\n" ++ ("out" : String)] :=
  ⟨c6_status_file_four_shapes.1 true true [] "BUILDING"
      (by simp [appMain, appLoop, buildingWrites]),
   c6_status_file_four_shapes.2.1 { Success := true, Output := "out" } rfl⟩

/-- Claim C7: evaluation of watch when the stdout pipe is created but the
fswatch process fails to start. The call does not abort: it returns
normally, with no running event source, and the loop is then entered — the
error of cmd.Start is discarded, contradicting the specified fatal-startup
behavior. -/
theorem c7_watch_ignores_start_failure :
    watch true false = WatchOutcome.returned false := rfl

/-- Claim C8: in single-run mode the loop reports at most one result,
returns via the once flag exactly when it reported one, and thus reports
exactly one result before returning — whether that result came from a
natural completion event or from the drained result of a canceled build. -/
theorem c8_single_run_one_report :
    ∀ (hs : Bool) (evs : List LoopEvent),
      (appMain hs true evs).reports.length ≤ 1 ∧
      ((appMain hs true evs).finished = true ↔ (appMain hs true evs).reports ≠ []) ∧
      ((appMain hs true evs).finished = true → (appMain hs true evs).reports.length = 1) := by
  intro hs evs
  have h := appLoop_once_mode hs evs true
  have hrep : (appMain hs true evs).reports = (appLoop hs true true evs).reports := rfl
  have hfin : (appMain hs true evs).finished = (appLoop hs true true evs).finished := rfl
  refine ⟨?_, ?_, ?_⟩
  · rw [hrep]; exact h.1
  · rw [hrep, hfin]; exact h.2
  · intro hf
    rw [hrep]
    have hne : (appLoop hs true true evs).reports ≠ [] := h.2.mp (by rw [← hfin]; exact hf)
    have hpos : 0 < (appLoop hs true true evs).reports.length := List.length_pos.mpr hne
    have hle := h.1
    omega

theorem c8_single_run_one_report_witness :
    (appMain false true [LoopEvent.result { Success := true, Output := "out" }]).reports.length
      = 1 :=
  (c8_single_run_one_report false [LoopEvent.result { Success := true, Output := "out" }]).2.2 rfl

/-- Claim C9, counterexample: on a session whose spawn failed there is no
abort receiver, so after the first abort send fills the capacity-1 buffer no
reachable state ever has room again — a second abort send is blocked
forever. -/
theorem c9_second_abort_blocks_after_spawn_failure :
    FailReach "spawn error" failAfterOneAbort ∧ ¬ secondAbortEverEnabled := by
  refine ⟨reach_failAfterOneAbort, ?_⟩
  rintro ⟨t, hreach, hlt⟩
  have hb : t.abortBuf = 1 := failStep_buffer_stays_full hreach rfl
  rw [hb] at hlt
  simp [abortChCap] at hlt

/-- Claim C9, amended: on a session whose process spawned, extra abort
requests are idempotent — whatever the number of abort sends, at most one
result is delivered and any delivered result is the canceled or the natural
one — and once the abort watcher has consumed the first request, the abort
buffer is empty again, so a second send does not block; on a spawn-failed
session a second send blocks forever as shown by the counterexample. -/
theorem c9_amended_double_abort :
    ∀ (p : ProcRun) (s : SState), SessionReach p s →
      s.resultsSent.length ≤ 1 ∧
      (∀ r ∈ s.resultsSent, r = canceledResult ∨ r = natResult p) ∧
      (s.apc ≠ APC.waitAbort → s.abortSends = 1 → s.abortBuf = 0) := by
  intro p s h
  have hinv := sessionReach_inv h
  refine ⟨?_, ?_, ?_⟩
  · rcases sessionInv_results hinv with hr | hr | hr <;> simp [hr]
  · intro r hr
    rcases sessionInv_results hinv with h0 | h0 | h0 <;> rw [h0] at hr
    · simp at hr
    · simp at hr; exact Or.inl hr
    · simp at hr; exact Or.inr hr
  · intro hA h1
    obtain ⟨-, -, h3, -, -, -, -, -⟩ := hinv
    have hb := h3 hA
    omega

theorem c9_amended_double_abort_witness :
    stAbortRecvd.abortBuf = 0 ∧ stAbortRecvd.resultsSent.length ≤ 1 :=
  ⟨(c9_amended_double_abort pZero stAbortRecvd reach_stAbortRecvd).2.2 (by decide) rfl,
   (c9_amended_double_abort pZero stAbortRecvd reach_stAbortRecvd).1⟩

/-- Claim C10: Homeopathy expands a leading tilde only when the path is
exactly the tilde or begins with tilde-slash; every other path — including
the tilde-user form or a tilde elsewhere — is returned unchanged with a nil
error, and RerootPath then passes it untouched to environment expansion,
joining and cleaning. -/
theorem c10_homeopathy_passthrough :
    ∀ (join : String → String → String) (clean ee : String → String)
      (usr : Option String) (p relto : String),
      p ≠ "~" → p.take 2 ≠ "~/" →
      Homeopathy join usr p = Except.ok p ∧
      RerootPath join clean ee usr p relto =
        Except.ok (clean (if pathIsAbs (ee p) then ee p else join relto (ee p))) := by
  intro join clean ee usr p relto h1 h2
  have hh : Homeopathy join usr p = Except.ok p := by
    unfold Homeopathy
    rw [if_neg h1, if_neg h2]
  refine ⟨hh, ?_⟩
  unfold RerootPath
  rw [hh]

theorem c10_homeopathy_passthrough_witness :
    Homeopathy (fun a b => a ++ "/" ++ b) (some "/home/u") "~user/x" = Except.ok "~user/x" ∧
    RerootPath (fun a b => a ++ "/" ++ b) (fun q => q) (fun q => q) (some "/home/u")
      "~user/x" "/base" = Except.ok "/base/~user/x" := by
  have h := c10_homeopathy_passthrough (fun a b => a ++ "/" ++ b) (fun q => q) (fun q => q)
    (some "/home/u") "~user/x" "/base" (by decide) (by decide)
  exact ⟨h.1, h.2.trans (by rfl)⟩

end Builderator
